import Mathlib

/-!
Verification development for the ngx-phone country-aware phone input pipeline.

The definitions below are shallow embeddings of the TypeScript sources:
  * string helpers model the JavaScript string/regex operations used by the code;
  * `getCountryByIso2`, `getCountryByDialCode`, `detectCountryFromNumber` embed
    `CountryService` (services/country.service.ts);
  * `resolvePreferredCountryByDialCode`, `shouldDetectCountryFromInput`,
    `extractNationalNumber`, `rewriteWithNewDialCode` embed utils/phone-number.util.ts;
  * `svcFormatAsYouType`, `svcFormat`, `extractCountry` embed
    services/phone-validator.service.ts with the libphonenumber primitives abstracted
    as explicit function parameters (they are external collaborators);
  * `validateNumber`, `processPhoneNumber`, `onPhoneInput`, `selectCountry`,
    `shouldShowErrorStep` embed components/ngx-phone/ngx-phone.component.ts.
External primitives (libphonenumber parse/format) are modelled as function-valued
parameters returning `Except Unit _` so that a thrown exception is `Except.error ()`.
-/

namespace NgxPhone

/-! ### JavaScript string operation models -/

/-- Characters matched by the JS digit class `\d`. -/
def onlyDigitsL (l : List Char) : List Char := l.filter Char.isDigit

/-- `s.replace(/\D/g, '')`: keep only the decimal digits of `s`. -/
def onlyDigits (s : String) : String := String.mk (onlyDigitsL s.data)

/-- `s.replace(/[^\d+]/g, '')`: keep digits and plus signs. -/
def cleanKeepPlus (s : String) : String :=
  String.mk (s.data.filter (fun c => c.isDigit || c == '+'))

/-- `s.toLowerCase()` restricted to the ASCII range used by ISO2 codes. -/
def jsToLower (s : String) : String := String.mk (s.data.map Char.toLower)

/-- `s.toUpperCase()` restricted to the ASCII range used by ISO2 codes. -/
def jsToUpper (s : String) : String := String.mk (s.data.map Char.toUpper)

/-- `s.trim()`: drop whitespace from both ends. -/
def jsTrim (s : String) : String :=
  String.mk (((s.data.dropWhile Char.isWhitespace).reverse.dropWhile Char.isWhitespace).reverse)

/-- `s.slice(n)` / `substring(n)` on code points. -/
def strDrop (s : String) (n : Nat) : String := String.mk (s.data.drop n)

/-- `s.substring(0, n)` on code points. -/
def strTake (s : String) (n : Nat) : String := String.mk (s.data.take n)

/-- `s.length` on code points. -/
def strLen (s : String) : Nat := s.data.length

/-- Does the list begin with the given pattern? -/
def leadsWith : List Char → List Char → Bool
  | [], _ => true
  | _ :: _, [] => false
  | p :: ps, c :: cs => p == c && leadsWith ps cs

/-- `s.startsWith(pat)`. -/
def strLeads (s pat : String) : Bool := leadsWith pat.data s.data

/-- Replace the first occurrence of `sub` by `repl` (JS `String.replace` with a
string pattern replaces only the first occurrence). -/
def replaceFirstOccL (sub repl : List Char) : List Char → List Char
  | [] => []
  | c :: cs =>
    if leadsWith sub (c :: cs) then repl ++ (c :: cs).drop sub.length
    else c :: replaceFirstOccL sub repl cs

/-- `s.replace(sub, repl)` with string pattern `sub`. -/
def replaceFirstOccS (s sub repl : String) : String :=
  String.mk (replaceFirstOccL sub.data repl.data s.data)

/-- `s.replace(sub, '')`: remove the first occurrence of `sub`. -/
def removeFirstOccS (s sub : String) : String := replaceFirstOccS s sub ""

/-- Does `sub` occur somewhere in the list? (JS `includes`). -/
def hasOccL (sub : List Char) : List Char → Bool
  | [] => leadsWith sub []
  | c :: cs => leadsWith sub (c :: cs) || hasOccL sub cs

/-- `s.includes(sub)`. -/
def hasOccS (s sub : String) : Bool := hasOccL sub.data s.data

/-- Length of the maximal run of leading digits. -/
def digitRunLen (l : List Char) : Nat := (l.takeWhile Char.isDigit).length

/-- Is the first character whitespace? (used to model a greedy optional `\s?`). -/
def headIsWhitespace (s : String) : Bool :=
  match s.data with
  | [] => false
  | c :: _ => c.isWhitespace

/-! ### Data model -/

/-- Registry entry, the fields of `Country` used by the verified logic
(models/phone-number.model.ts). `priority` is the value produced by
`CountryService.getCountryPriority`. -/
structure Country where
  iso2 : String
  name : String
  dialCode : String
  priority : Nat
deriving Repr, DecidableEq

/-- Structured validation error (`ValidationError`). -/
structure PhoneError where
  type : String
  message : String
deriving Repr, DecidableEq

/-- `ValidationResult` as used by the component. -/
structure VResult where
  isValid : Bool
  isPossible : Bool
  error : Option PhoneError
deriving Repr, DecidableEq

/-! ### CountryService (services/country.service.ts) -/

/-- `getCountryByIso2`: first registry entry whose ISO2 matches case-insensitively. -/
def getCountryByIso2 (countries : List Country) (iso2 : String) : Option Country :=
  countries.find? (fun c => jsToLower c.iso2 == jsToLower iso2)

/-- `getCountryByDialCode`: first registry entry whose dial-code digits match. -/
def getCountryByDialCode (countries : List Country) (dialCode : String) : Option Country :=
  countries.find? (fun c => onlyDigits c.dialCode == onlyDigits dialCode)

/-- `getCountriesByDialCode`: all registry entries sharing the dial-code digits. -/
def getCountriesByDialCode (countries : List Country) (dialCode : String) : List Country :=
  countries.filter (fun c => onlyDigits c.dialCode == onlyDigits dialCode)

/-- The prefix lengths tried by `detectCountryFromNumber` (`for let len = 4; len >= 1`). -/
def detectLens : List Nat := [4, 3, 2, 1]

/-- The longest-match-first loop of `detectCountryFromNumber`: for each `len`,
when `cleaned.length > len`, look up the dial code `cleaned.substring(0, len + 1)`. -/
def detectScan (countries : List Country) (cleaned : String) : List Nat → Option Country
  | [] => none
  | len :: rest =>
    if len < strLen cleaned then
      match getCountryByDialCode countries (strTake cleaned (len + 1)) with
      | some c => some c
      | none => detectScan countries cleaned rest
    else detectScan countries cleaned rest

/-- `detectCountryFromNumber`: strip everything but digits and `+`; for a `+`-leading
string run the longest-match-first prefix scan; otherwise default to the registered
`US` entry when at least two characters remain, and detect nothing when fewer. -/
def detectCountryFromNumber (countries : List Country) (phoneNumber : String) : Option Country :=
  let cleaned := cleanKeepPlus phoneNumber
  if cleaned = "" then none
  else if strLeads cleaned "+" then detectScan countries cleaned detectLens
  else if 2 ≤ strLen cleaned then getCountryByIso2 countries "US"
  else none

/-- `filterCountries`: allow-list (if non-empty) then deny-list, compared upper-case. -/
def filterCountries (countries : List Country)
    (onlyCountries excludeCountries : List String) : List Country :=
  let filtered :=
    if onlyCountries ≠ [] then
      countries.filter (fun c => (onlyCountries.map jsToUpper).contains (jsToUpper c.iso2))
    else countries
  if excludeCountries ≠ [] then
    filtered.filter (fun c => !((excludeCountries.map jsToUpper).contains (jsToUpper c.iso2)))
  else filtered

/-! ### The registry sort order of `initializeCountries`

`initializeCountries` sorts the registry with
`if (a.priority !== b.priority) return (a.priority || 999) - (b.priority || 999)`
then `a.name.localeCompare(b.name)`.  `effPriority` models the falsy-zero coercion
`p || 999`; names are compared by code points (`localeCompare` on the ASCII names
used here agrees with code-point order). -/

/-- JS `p || 999` on a priority value. -/
def effPriority (p : Nat) : Nat := if p = 0 then 999 else p

/-- Code-point lexicographic `≤` on character lists. -/
def lexLeL : List Char → List Char → Bool
  | [], _ => true
  | _ :: _, [] => false
  | a :: as, b :: bs =>
    if a.toNat < b.toNat then true
    else if b.toNat < a.toNat then false
    else lexLeL as bs

/-- The total order in which `initializeCountries` keeps the registry:
effective priority first, then name. -/
def countryLeB (a b : Country) : Bool :=
  if effPriority a.priority < effPriority b.priority then true
  else if effPriority b.priority < effPriority a.priority then false
  else lexLeL a.name.data b.name.data

/-- A registry as produced by `initializeCountries`: pairwise sorted by `countryLeB`. -/
def registrySorted (countries : List Country) : Prop :=
  countries.Pairwise (fun a b => countryLeB a b = true)

/-! ### Dial-code preference (utils/phone-number.util.ts and the inlined copies) -/

/-- Lookup in the `dialCodeCountryPreference` record. -/
def lookupPref (pref : List (String × String)) (key : String) : Option String :=
  (pref.find? (fun kv => kv.1 == key)).map (fun kv => kv.2)

/-- `resolvePreferredCountryByDialCode`: given a detected country, look up the
preference for its bare dial-code digits (`dialCode.replace('+', '')`); a truthy
preferred ISO2 that resolves via `getByIso2` replaces the detected country; in every
other case the detected country is kept.  The same logic is inlined in
`detectCountryFromInput` and `onPhoneInput` of the component. -/
def resolvePreferredCountryByDialCode (detected : Option Country)
    (pref : List (String × String)) (getByIso2 : String → Option Country) : Option Country :=
  match detected with
  | none => none
  | some d =>
    match lookupPref pref (removeFirstOccS d.dialCode "+") with
    | none => some d
    | some preferredIso =>
      if preferredIso = "" then some d
      else
        match getByIso2 preferredIso with
        | some preferred => some preferred
        | none => some d

/-- `shouldDetectCountryFromInput` (utils/phone-number.util.ts).  The component's
`processPhoneNumber` calls it with only the first two arguments, so
`selectedCountryIso` is `undefined` and the flags are `undefined` (falsy). -/
def shouldDetectCountryFromInput (value digits : String)
    (selectedCountryIso : Option String) (isManualSel isLockedFlag : Bool) : Bool :=
  if strLeads value "+" then true
  else if selectedCountryIso = none ∨ selectedCountryIso = some "" then
    decide (1 ≤ strLen digits)
  else if isManualSel then false
  else decide (1 ≤ strLen digits) && !isLockedFlag

/-! ### PhoneValidationService (services/phone-validator.service.ts)

The libphonenumber primitives are external collaborators; each is a function
parameter whose `Except.error ()` result models a thrown exception. -/

/-- Result of `parsePhoneNumberFromString` as consumed by `extractNationalNumber`:
only the parsed country and national number are read. -/
structure ParsedNatl where
  countryIso : Option String
  national : Option String
deriving Repr, DecidableEq

/-- Result of `parsePhoneNumberFromString` as consumed by `format`: the four
renderings plus the calling code. -/
structure ParsedNumber where
  intlFormat : String
  natlFormat : String
  e164Format : String
  rfc3966Format : String
  countryCallingCode : String
deriving Repr, DecidableEq

/-- `FormatOptions` of the service `format` method. -/
structure FormatOptions where
  style : String
  removeDialCode : Bool
  addSpaceAfterDialCode : Bool
deriving Repr, DecidableEq

/-- `formatAsYouType`: delegate to the `AsYouType` primitive; on a thrown
exception return the input unchanged. -/
def svcFormatAsYouType (prim : String → String → Except Unit String)
    (phoneNumber : String) (countryCode : String) : String :=
  match prim phoneNumber countryCode with
  | Except.ok r => r
  | Except.error _ => phoneNumber

/-- `format`: parse via the primitive; when parsing throws or yields nothing return
the input unchanged; otherwise render in the requested style (unknown styles fall
back to INTERNATIONAL, mirroring `options?.style || 'INTERNATIONAL'` plus the
switch default) and apply the two optional dial-code adjustments. -/
def svcFormat (prim : String → Option String → Except Unit (Option ParsedNumber))
    (phoneNumber : String) (opts : FormatOptions) (countryCode : Option String) : String :=
  match prim phoneNumber countryCode with
  | Except.error _ => phoneNumber
  | Except.ok none => phoneNumber
  | Except.ok (some parsed) =>
    let style := if opts.style = "" then "INTERNATIONAL" else opts.style
    let formatted :=
      if style = "NATIONAL" then parsed.natlFormat
      else if style = "E164" then parsed.e164Format
      else if style = "RFC3966" then parsed.rfc3966Format
      else parsed.intlFormat
    let dialCode := "+" ++ parsed.countryCallingCode
    let formatted :=
      if opts.removeDialCode ∧ style ≠ "E164" then
        jsTrim (removeFirstOccS formatted dialCode)
      else formatted
    let formatted :=
      if opts.addSpaceAfterDialCode ∧ style = "INTERNATIONAL" then
        if hasOccS formatted (dialCode ++ " ") then formatted
        else replaceFirstOccS formatted dialCode (dialCode ++ " ")
      else formatted
    formatted

/-- `extractCountry`: try the parse primitive; when it yields a country, look that
country up by ISO2 and return the lookup result; when it throws or yields no
country, fall back to `detectCountryFromNumber`. -/
def extractCountry (countries : List Country)
    (parseIso : String → Except Unit (Option String)) (phoneNumber : String) : Option Country :=
  match parseIso phoneNumber with
  | Except.ok (some iso) => getCountryByIso2 countries iso
  | Except.ok none => detectCountryFromNumber countries phoneNumber
  | Except.error _ => detectCountryFromNumber countries phoneNumber

/-! ### Remaining pure utilities (utils/phone-number.util.ts) -/

/-- The regex branch of `extractNationalNumber`:
`trimmed.match(/^\+(\d{1,4})\s?(.*)/)` with the
`match && match[2] ? match[2] : trimmed.slice(2).replace(/^\d{0,3}\s?/, '')`
fallback.  The pattern greedily takes up to four digits after the `+` and one
optional whitespace character. -/
def plusSliceFallback (trimmed : String) : String :=
  let sliced := strDrop trimmed 2
  let m := min (digitRunLen sliced.data) 3
  let rest0 := strDrop sliced m
  if headIsWhitespace rest0 then strDrop rest0 1 else rest0

/-- See `plusSliceFallback`; this is the whole `trimmed.startsWith('+')` arm. -/
def plusRegexNational (trimmed : String) : String :=
  let afterPlus := strDrop trimmed 1
  let run := digitRunLen afterPlus.data
  if 1 ≤ run then
    let k := min run 4
    let rest0 := strDrop afterPlus k
    let rest := if headIsWhitespace rest0 then strDrop rest0 1 else rest0
    if rest ≠ "" then rest else plusSliceFallback trimmed
  else plusSliceFallback trimmed

/-- `iso || undefined`: an empty ISO2 string is falsy. -/
def isoOrNone (iso : Option String) : Option String :=
  match iso with
  | some "" => none
  | other => other

/-- `extractNationalNumber` (utils/phone-number.util.ts): for `+`-leading text try
the parse primitive and use its national digits when it confirms the selected
country; otherwise strip the current dial code (or a regex-guessed 1-4 digit code)
and remove `[\s().-]` characters. -/
def extractNationalNumber (phoneValue : String) (selectedCountryIso : Option String)
    (currentDialCode : Option String)
    (parse : String → Option String → Option ParsedNatl) : String :=
  if phoneValue = "" then ""
  else
    let trimmed := jsTrim phoneValue
    let dial := currentDialCode.getD ""
    let parseHit : Option String :=
      if strLeads trimmed "+" then
        match parse trimmed (isoOrNone selectedCountryIso) with
        | some parsed =>
          match parsed.countryIso, selectedCountryIso with
          | some pc, some sel =>
            if sel ≠ "" ∧ pc = sel then some (onlyDigits (parsed.national.getD ""))
            else none
          | _, _ => none
        | none => none
      else none
    match parseHit with
    | some n => n
    | none =>
      let nationalNumber :=
        if strLeads trimmed ("+" ++ strDrop dial 1) then jsTrim (strDrop trimmed (strLen dial))
        else if dial ≠ "" ∧ strLeads trimmed dial = true then
          jsTrim (strDrop trimmed (strLen dial))
        else if strLeads trimmed "+" then plusRegexNational trimmed
        else trimmed
      jsTrim (String.mk (nationalNumber.data.filter
        (fun c => !(c.isWhitespace || c == '(' || c == ')' || c == '.' || c == '-'))))

/-- The `raw.replace(/^\+?\d{1,4}/, '')` step of `rewriteWithNewDialCode`:
remove an optional leading `+` together with one to four digits; when no digit
follows, the regex does not match and the string is unchanged. -/
def stripLeadingDialLike (raw : String) : String :=
  let rest := if strLeads raw "+" then strDrop raw 1 else raw
  let run := digitRunLen rest.data
  if 1 ≤ run then strDrop rest (min run 4) else raw

/-- `rewriteWithNewDialCode` (utils/phone-number.util.ts). -/
def rewriteWithNewDialCode (rawValue : String) (currentDialCode : Option String)
    (newDialCode newCountryIso : String) (asYouType : String → String → String) : String :=
  let raw := jsTrim rawValue
  let curr := currentDialCode.getD ""
  let numberWithoutDial :=
    if curr ≠ "" ∧ strLeads raw curr = true then jsTrim (strDrop raw (strLen curr))
    else if curr ≠ "" ∧ strLeads raw ("+" ++ curr) = true then
      jsTrim (strDrop raw (strLen curr + 1))
    else jsTrim (stripLeadingDialLike raw)
  asYouType (newDialCode ++ " " ++ numberWithoutDial) newCountryIso

/-! ### Component model (components/ngx-phone/ngx-phone.component.ts) -/

/-- The values of `showErrorsOn` accepted by the normalized configuration. -/
inductive ShowOn
  | touched
  | dirty
  | focus
  | blur
  | always
  | live
deriving Repr, DecidableEq

/-- The behaviourally relevant fields of the normalized configuration
(utils/phone-config.util.ts `DEFAULT_CONFIG` merged with the user config). -/
structure Config where
  autoFormat : Bool
  defaultCountry : String
  fallbackCountry : String
  showErrorsOn : ShowOn
  showCountryCodeInInput : Bool
  separateCountrySelector : Bool
  clearInputOnCountryChange : Bool
  dialCodeCountryPreference : List (String × String)
  requiredMessage : String
  formatStyle : String
deriving Repr, DecidableEq

/-- The external libphonenumber-backed collaborators used by the component. -/
structure Ext where
  parseIso : String → Except Unit (Option String)
  asYouTypePrim : String → String → Except Unit String
  parseNatl : String → Option String → Option ParsedNatl
  libValidate : String → Option String → VResult
  finalFormatPrim : String → Option String → Except Unit (Option ParsedNumber)

/-- The session flags read by `validateNumber`. -/
structure ValFlags where
  hasFormControls : Bool
  isFocused : Bool
  hasUserInteracted : Bool
  hasBeenFocused : Bool
  required : Bool
deriving Repr, DecidableEq

/-- What one run of `validateNumber` produces: the stored `validationResult`,
the `isValid`/`isPossible` flags, the possibly reformatted `phoneValue`, whether
`validationChange.emit` fired, and whether the library validation service was
invoked. -/
structure ValOutcome where
  validationResult : Option VResult
  isValid : Bool
  isPossible : Bool
  phoneValue : String
  emitted : Bool
  libCalled : Bool
deriving Repr, DecidableEq

/-- A registered custom validator: `(text, selectedCountry) -> error | null`. -/
def CustomValidator : Type := String → Option Country → Option PhoneError

/-- The custom-validator loop of `validateNumber`: first non-null result in
registration order. -/
def firstCustomError : List CustomValidator → String → Option Country → Option PhoneError
  | [], _, _ => none
  | v :: rest, value, country =>
    match v value country with
    | some e => some e
    | none => firstCustomError rest value country

/-- The ISO2 actually handed to the final `format` call inside `validateNumber`:
`this.selectedCountry?.iso2 || this.normalizedConfig.defaultCountry || 'US'`. -/
def formatIsoChain (cfg : Config) (selected : Option Country) : String :=
  match selected with
  | some c => if c.iso2 ≠ "" then c.iso2 else if cfg.defaultCountry ≠ "" then cfg.defaultCountry else "US"
  | none => if cfg.defaultCountry ≠ "" then cfg.defaultCountry else "US"

/-- `validateNumber`: the per-settle validation pipeline of the component.
Stage order as in the source: template-driven initialization guard, empty-value
handling, custom validators, library validation, optional final reformat. -/
def validateNumber (cfg : Config) (ext : Ext) (customValidators : List CustomValidator)
    (selected : Option Country) (flags : ValFlags) (phoneValue : String) : ValOutcome :=
  let trimmed := jsTrim phoneValue
  if flags.hasFormControls = false ∧ flags.isFocused = false ∧
      flags.hasUserInteracted = false ∧ flags.hasBeenFocused = false ∧ trimmed = "" then
    ⟨none, true, false, phoneValue, false, false⟩
  else if trimmed = "" then
    if flags.hasFormControls = true ∨ flags.hasUserInteracted = true ∨
        flags.hasBeenFocused = true then
      let res : VResult :=
        ⟨!flags.required, false,
          if flags.required then some ⟨"REQUIRED", cfg.requiredMessage⟩ else none⟩
      ⟨some res, res.isValid, false, phoneValue, true, false⟩
    else ⟨none, true, false, phoneValue, false, false⟩
  else
    match firstCustomError customValidators phoneValue selected with
    | some customError =>
      ⟨some ⟨false, false, some customError⟩, false, false, phoneValue, true, false⟩
    | none =>
      let result := ext.libValidate phoneValue (selected.map (fun c => c.iso2))
      let newPhone :=
        if result.isValid && cfg.autoFormat then
          svcFormat ext.finalFormatPrim phoneValue ⟨cfg.formatStyle, false, false⟩
            (some (formatIsoChain cfg selected))
        else phoneValue
      ⟨some result, result.isValid, result.isPossible, newPhone, true, true⟩

/-- The mutable component state touched by the embedded event handlers. -/
structure Session where
  phoneValue : String
  selected : Option Country
  isCountryLocked : Bool
  isManualCountrySelection : Bool
  flags : ValFlags
  validationResult : Option VResult
  isValid : Bool
  isPossible : Bool
  hasShownError : Bool
deriving Repr, DecidableEq

/-- The body of `detectCountryFromInput` after its flag guard: `extractCountry`,
then for `+`-leading input the inlined dial-code preference override (identical in
effect to `resolvePreferredCountryByDialCode`). -/
def detectCountryFromInputCore (countries : List Country) (pref : List (String × String))
    (parseIso : String → Except Unit (Option String)) (value : String) : Option Country :=
  let detected := extractCountry countries parseIso value
  if strLeads value "+" then
    resolvePreferredCountryByDialCode detected pref (getCountryByIso2 countries)
  else detected

/-- `(defaultCountry || fallbackCountry || 'US')` in `fallbackToDefaultCountry`. -/
def fallbackIsoChain (cfg : Config) : String :=
  if cfg.defaultCountry ≠ "" then cfg.defaultCountry
  else if cfg.fallbackCountry ≠ "" then cfg.fallbackCountry
  else "US"

/-- Detection step of `processPhoneNumber`.  The gate combines
`shouldDetectFromInputUtil(trimmedValue, digits)` (called with only two arguments)
with the flag and leading-`+`/no-country conditions of the source; when it fires,
`detectCountryFromInput` runs and a country that differs from the current selection
replaces it (via `selectCountry(detected, false, false, false)`).  The redundant flag
guard at the top of `detectCountryFromInput` is subsumed by the gate. -/
def procDetectPhase (cfg : Config) (ext : Ext) (countries : List Country)
    (s : Session) (trimmed digits : String) : Session × Bool :=
  let shouldDetect := shouldDetectCountryFromInput trimmed digits none false false
  let attempted :=
    shouldDetect && !s.isManualCountrySelection && !s.isCountryLocked &&
      (strLeads trimmed "+" || s.selected.isNone)
  (if attempted then
    match detectCountryFromInputCore countries cfg.dialCodeCountryPreference ext.parseIso trimmed with
    | some detected =>
      if s.selected.map (fun c => c.iso2) ≠ some detected.iso2 then
        { s with selected := some detected }
      else s
    | none => s
  else s, attempted)

/-- Fallback step of `processPhoneNumber` plus the guard inside
`fallbackToDefaultCountry`. -/
def procFallbackPhase (cfg : Config) (countries : List Country)
    (s : Session) (trimmed digits : String) : Session :=
  if s.selected.isNone && !s.isManualCountrySelection &&
      decide (3 ≤ strLen digits) && !(strLeads trimmed "+") then
    if !s.isManualCountrySelection && !s.isCountryLocked && s.selected.isNone then
      match getCountryByIso2 countries (jsToUpper (fallbackIsoChain cfg)) with
      | some fallback => { s with selected := some fallback }
      | none => s
    else s
  else s

/-- Auto-format step of `processPhoneNumber`: as-you-type format (with the dial
code prepended for national-format text), then strip the dial code again from the
display for national-format text. -/
def procFormatPhase (cfg : Config) (ext : Ext) (s : Session) (trimmed digits : String) : Session :=
  if cfg.autoFormat && s.selected.isSome && decide (1 ≤ strLen digits) then
    match s.selected with
    | some c =>
      let toFormat := if strLeads trimmed "+" then trimmed else c.dialCode ++ " " ++ trimmed
      let formatted := svcFormatAsYouType ext.asYouTypePrim toFormat c.iso2
      if formatted ≠ "" ∧ formatted ≠ s.phoneValue then
        if !(strLeads trimmed "+") && hasOccS formatted c.dialCode then
          { s with phoneValue := jsTrim (removeFirstOccS formatted c.dialCode) }
        else { s with phoneValue := formatted }
      else s
    | none => s
  else s

/-- What one (non-short-circuited) run of `processPhoneNumber` produces. -/
structure ProcOutcome where
  session : Session
  detectionAttempted : Bool
  validationRan : Bool
  validationEmitted : Bool
  valueEmitted : Bool
deriving Repr, DecidableEq

/-- The body of `processPhoneNumber` past its `this.phoneValue === value` early
return: lock reset on the national-to-international transition, detection,
fallback, auto-format, `validateNumber`, and the final
`if (this.phoneValue === value) this.emitValue()`. -/
def processPhoneNumberCore (cfg : Config) (ext : Ext) (countries : List Country)
    (customs : List CustomValidator) (s : Session) (value : String) : ProcOutcome :=
  let digits := onlyDigits value
  let trimmed := jsTrim value
  let s1 :=
    if strLeads trimmed "+" && !(strLeads s.phoneValue "+") then
      { s with isCountryLocked := false, isManualCountrySelection := false }
    else s
  let pd := procDetectPhase cfg ext countries s1 trimmed digits
  let s3 := procFallbackPhase cfg countries pd.1 trimmed digits
  let s4 := procFormatPhase cfg ext s3 trimmed digits
  let out := validateNumber cfg ext customs s4.selected s4.flags s4.phoneValue
  let s5 := { s4 with
    phoneValue := out.phoneValue
    validationResult := out.validationResult
    isValid := out.isValid
    isPossible := out.isPossible }
  ⟨s5, pd.2, true, out.emitted, out.phoneValue == value⟩

/-- `processPhoneNumber`, the debounced settle handler: a value equal to the
current display text returns immediately (no detection, no validation, no
emission). -/
def processPhoneNumber (cfg : Config) (ext : Ext) (countries : List Country)
    (customs : List CustomValidator) (s : Session) (value : String) : ProcOutcome :=
  if s.phoneValue = value then ⟨s, false, false, false, false⟩
  else processPhoneNumberCore cfg ext countries customs s value

/-- What one run of `onPhoneInput` produces: the updated state, whether real-time
validation ran, and the value pushed into the debounced `phoneInput$` channel.
`emitValue()` always fires at the end of the handler (the optimistic emission). -/
structure InputOutcome where
  session : Session
  validationRan : Bool
  pushed : String
deriving Repr, DecidableEq

/-- The immediate-detection arm of `onPhoneInput` for `+`-leading changed input:
optional lock reset, direct `detectCountryFromNumber`, inlined preference
override, then as-you-type formatting once at least two digits are present. -/
def inputPlusArm (cfg : Config) (ext : Ext) (countries : List Country)
    (s : Session) (value previousValue : String) : Session :=
  let s :=
    if !(strLeads previousValue "+") || previousValue == "" then
      { s with isManualCountrySelection := false, isCountryLocked := false }
    else s
  if !s.isManualCountrySelection && !s.isCountryLocked then
    let detectedCountry :=
      resolvePreferredCountryByDialCode (detectCountryFromNumber countries value)
        cfg.dialCodeCountryPreference (getCountryByIso2 countries)
    match detectedCountry with
    | some d =>
      if some d.iso2 ≠ s.selected.map (fun c => c.iso2) then
        let s := { s with selected := some d }
        if 2 ≤ strLen (onlyDigits value) then
          let formatted := svcFormatAsYouType ext.asYouTypePrim value d.iso2
          if formatted ≠ "" ∧ formatted ≠ value then { s with phoneValue := formatted } else s
        else s
      else s
    | none => s
  else s

/-- The national-format arm of `onPhoneInput`: reformat behind the scenes with the
selected country's dial code, then strip it again for display. -/
def inputNationalArm (cfg : Config) (ext : Ext) (s : Session) (value : String)
    (c : Country) : Session :=
  if decide (1 ≤ strLen (onlyDigits value)) && cfg.autoFormat then
    let formatted := svcFormatAsYouType ext.asYouTypePrim (c.dialCode ++ " " ++ value) c.iso2
    if formatted ≠ "" ∧ hasOccS formatted c.dialCode = true then
      let nationalPart := jsTrim (removeFirstOccS formatted c.dialCode)
      if nationalPart ≠ "" ∧ nationalPart ≠ value then { s with phoneValue := nationalPart }
      else s
    else s
  else s

/-- `onPhoneInput`, the synchronous per-keystroke handler (for an enabled,
non-readonly field): mark interaction, store the raw value, run the immediate
branch, optionally validate in real time, emit optimistically, and push the raw
value into the debounced channel. -/
def onPhoneInput (cfg : Config) (ext : Ext) (countries : List Country)
    (customs : List CustomValidator) (s : Session) (value : String) : InputOutcome :=
  let s := { s with flags := { s.flags with hasUserInteracted := true } }
  let previousValue := s.phoneValue
  let s := { s with phoneValue := value }
  let s :=
    if strLeads value "+" && (value != previousValue) then
      inputPlusArm cfg ext countries s value previousValue
    else
      match s.selected with
      | some c => if strLeads value "+" then s else inputNationalArm cfg ext s value c
      | none => s
  let liveValidate :=
    s.hasShownError || decide (cfg.showErrorsOn = ShowOn.live) ||
      decide (cfg.showErrorsOn = ShowOn.always)
  if liveValidate then
    let out := validateNumber cfg ext customs s.selected s.flags s.phoneValue
    ⟨{ s with
        phoneValue := out.phoneValue
        validationResult := out.validationResult
        isValid := out.isValid
        isPossible := out.isPossible }, true, value⟩
  else ⟨s, false, value⟩

/-- `selectCountry`: switch the selection, set the manual/lock flags for a manual
pick, revert when an automatic change races a manual selection, and rewrite the
display text according to `updateInput`/`clearInput`/`isManual` and the
`showCountryCodeInInput`/`separateCountrySelector` configuration.  In the
non-manual rewrite branch, `rewritePhoneInputWithNewCountryCode` reads
`this.selectedCountry?.dialCode` after the source has already reassigned
`this.selectedCountry` to the new country, so the new dial code is passed as the
current one. -/
def selectCountry (cfg : Config) (ext : Ext) (s : Session) (country : Country)
    (updateInput clearInput isManual : Bool) : Session :=
  let previousCountry := s.selected
  let s := { s with selected := some country }
  let s :=
    if isManual then { s with isManualCountrySelection := true, isCountryLocked := true }
    else s
  if s.isManualCountrySelection && !isManual then { s with selected := previousCountry }
  else if updateInput then
    if clearInput || (s.phoneValue == "") || isManual then
      if isManual && (s.phoneValue != "") then
        let nationalNumber :=
          extractNationalNumber s.phoneValue (some country.iso2) (some country.dialCode)
            ext.parseNatl
        if cfg.showCountryCodeInInput || cfg.separateCountrySelector then
          { s with phoneValue :=
              (svcFormatAsYouType ext.asYouTypePrim
                (country.dialCode ++ " " ++ nationalNumber) country.iso2) }
        else
          let fullFormatted :=
            svcFormatAsYouType ext.asYouTypePrim
              (country.dialCode ++ " " ++ nationalNumber) country.iso2
          { s with phoneValue := jsTrim (removeFirstOccS fullFormatted country.dialCode) }
      else
        if cfg.showCountryCodeInInput || cfg.separateCountrySelector then
          { s with phoneValue := svcFormatAsYouType ext.asYouTypePrim country.dialCode country.iso2 }
        else { s with phoneValue := "" }
    else
      { s with phoneValue :=
          (rewriteWithNewDialCode s.phoneValue (some country.dialCode)
            country.dialCode country.iso2
            (fun input iso => svcFormatAsYouType ext.asYouTypePrim input iso)) }
  else s

/-- The inputs read by one evaluation of `shouldShowError`. -/
structure ErrInputs where
  hasAnyError : Bool
  hasUserInteracted : Bool
  hasBeenFocused : Bool
  isFocused : Bool
  hasFormControls : Bool
  showErrorsOn : ShowOn
  ctrlTouched : Bool
  ctrlDirty : Bool
  ctrlInvalid : Bool
deriving Repr, DecidableEq

/-- One evaluation of `shouldShowError` as a transition on the `hasShownError`
flag: returns the new flag and the boolean result.  Source order: set the flag
when an error is present and the user has interacted/focused; reset it (and return
false) when no error is present; return true while the flag holds; otherwise apply
the configured first-appearance trigger (reactive branch when a parent control is
attached, template-driven fallback otherwise; the switch defaults behave like
`dirty`). -/
def shouldShowErrorStep (hasShownError : Bool) (i : ErrInputs) : Bool × Bool :=
  let flag :=
    if i.hasAnyError && (i.hasUserInteracted || i.hasBeenFocused || i.isFocused) then true
    else hasShownError
  if !i.hasAnyError then (false, false)
  else if flag then (flag, true)
  else if i.hasFormControls then
    (flag,
      match i.showErrorsOn with
      | ShowOn.touched => i.ctrlTouched && i.ctrlInvalid
      | ShowOn.dirty => i.ctrlDirty && i.ctrlInvalid
      | ShowOn.focus => i.isFocused && i.ctrlInvalid
      | ShowOn.blur => !i.isFocused && i.ctrlTouched && i.ctrlInvalid
      | ShowOn.always => i.ctrlInvalid
      | ShowOn.live => i.ctrlInvalid)
  else
    (flag,
      match i.showErrorsOn with
      | ShowOn.blur => !i.isFocused && i.hasBeenFocused && i.hasAnyError
      | ShowOn.focus => i.isFocused && i.hasAnyError
      | ShowOn.live => i.hasAnyError
      | ShowOn.always => i.hasAnyError
      | ShowOn.touched => i.hasUserInteracted && i.hasAnyError
      | ShowOn.dirty => i.hasUserInteracted && i.hasAnyError)

/-! ### Debounce model (setupSubscriptions)

`phoneInput$.pipe(debounceTime(300), distinctUntilChanged(), ...)`: a trailing-edge
debounce — an event settles 300 time-units later unless a newer event arrives
within the window — followed by suppression of consecutive duplicate settled
values.  Event lists are assumed ordered by strictly increasing timestamps. -/

/-- Trailing-edge `debounceTime(300)` over a timestamp-ordered event list. -/
def trailingSettles : List (Nat × String) → List (Nat × String)
  | [] => []
  | e :: rest =>
    match rest with
    | [] => [(e.1 + 300, e.2)]
    | f :: _ =>
      if e.1 + 300 < f.1 then (e.1 + 300, e.2) :: trailingSettles rest
      else trailingSettles rest

/-- `distinctUntilChanged` on the settled values. -/
def dedupAux (prev : String) : List (Nat × String) → List (Nat × String)
  | [] => []
  | e :: rest => if e.2 = prev then dedupAux prev rest else e :: dedupAux e.2 rest

/-- The settled text-channel events: debounce then duplicate suppression. -/
def debouncedDistinct (events : List (Nat × String)) : List (Nat × String) :=
  match trailingSettles events with
  | [] => []
  | e :: rest => e :: dedupAux e.2 rest

/-! ### Concrete fixtures

Registry entries as `initializeCountries` builds them: `getCountryPriority` maps
US to `priorities['US'] || 999 = 0 || 999 = 999`, GB to 1 and CA to 2, so the
sorted registry lists GB, CA, US in that order. -/

/-- United States registry entry. -/
def usC : Country := ⟨"US", "United States", "+1", 999⟩

/-- United Kingdom registry entry. -/
def gbC : Country := ⟨"GB", "United Kingdom", "+44", 1⟩

/-- Canada registry entry. -/
def caC : Country := ⟨"CA", "Canada", "+1", 2⟩

/-- A three-country registry in the order produced by `initializeCountries`. -/
def regR : List Country := [gbC, caC, usC]

/-- The normalized default configuration (utils/phone-config.util.ts
`DEFAULT_CONFIG`) restricted to the embedded fields. -/
def cfg0 : Config :=
  ⟨true, "US", "US", ShowOn.dirty, false, false, false, [],
    "Phone number is required.", "INTERNATIONAL"⟩

/-- Concrete external collaborators for evaluation: the parser finds no country,
the as-you-type formatter echoes its input, and library validation rejects. -/
def ext0 : Ext :=
  ⟨fun _ => Except.ok none,
   fun s _ => Except.ok s,
   fun _ _ => none,
   fun _ _ => ⟨false, false, some ⟨"INVALID", "Invalid phone number."⟩⟩,
   fun _ _ => Except.error ()⟩

/-- Flags of a fresh template-driven, never-touched field. -/
def freshFlags : ValFlags := ⟨false, false, false, false, false⟩

/-- A freshly initialized session. -/
def freshSession : Session := ⟨"", none, false, false, freshFlags, none, false, false, false⟩

/-- A session whose display text already starts with `+` while the manual/lock
flags are set (reachable via a manual pick with `showCountryCodeInInput`). -/
def sLockedPlus : Session :=
  ⟨"+44 20", some gbC, true, true, ⟨false, false, true, true, false⟩, none, false, false, false⟩

/-- A session whose display text is national-format while the manual/lock flags
are set. -/
def sNatLocked : Session :=
  ⟨"0123", some gbC, true, true, ⟨false, false, true, true, false⟩, none, false, false, false⟩

/-- `cfg0` with the dial code shown in the input. -/
def cfgShow : Config := { cfg0 with showCountryCodeInInput := true }

/-- A session with an empty field and a selected country. -/
def emptyUS : Session :=
  ⟨"", some usC, false, false, ⟨false, false, true, true, false⟩, none, false, false, false⟩

/-- A session holding a national-format number. -/
def sParen : Session :=
  ⟨"(555) 123-4567", some usC, false, false, ⟨false, false, true, true, false⟩,
    none, false, false, false⟩

/-- Modelled from the spec (Country Detector rule 2): the same longest-match-first
dial-code prefix search, run over the digits-only text as if it began with an
implicit leading `+`.  This definition follows the specification's words and is
compared against the source's `detectCountryFromNumber`. -/
def specPrefixDetect (countries : List Country) (digits : String) : Option Country :=
  detectScan countries ("+" ++ digits) detectLens

/-! ### C9 -/

/-- C9: when the underlying formatting primitive throws (as-you-type) or throws or
fails to parse (final format), `formatAsYouType` and `format` return the input
string unchanged; both are total functions, so no exception reaches the caller. -/
theorem c9_formatting_failure_returns_input
    (aytPrim : String → String → Except Unit String)
    (fmtPrim : String → Option String → Except Unit (Option ParsedNumber))
    (phoneNumber iso : String) (opts : FormatOptions) (countryCode : Option String)
    (hayt : aytPrim phoneNumber iso = Except.error ())
    (hfmt : fmtPrim phoneNumber countryCode = Except.error () ∨
      fmtPrim phoneNumber countryCode = Except.ok none) :
    svcFormatAsYouType aytPrim phoneNumber iso = phoneNumber ∧
    svcFormat fmtPrim phoneNumber opts countryCode = phoneNumber := by
  constructor
  · unfold svcFormatAsYouType
    rw [hayt]
  · rcases hfmt with h | h <;> · unfold svcFormat; rw [h]

/-- Witness for C9 at a throwing as-you-type primitive and an unparseable final
format input. -/
theorem c9_witness :
    svcFormatAsYouType (fun _ _ => Except.error ()) "+1 5551234567" "US" = "+1 5551234567" ∧
    svcFormat (fun _ _ => Except.ok none) "+1 5551234567"
      ⟨"INTERNATIONAL", false, false⟩ (some "US") = "+1 5551234567" := by
  have h := c9_formatting_failure_returns_input (fun _ _ => Except.error ())
    (fun _ _ => Except.ok none) "+1 5551234567" "US"
    ⟨"INTERNATIONAL", false, false⟩ (some "US") rfl (Or.inr rfl)
  exact h

/-! ### C10 -/

/-- C10: `getCountryByIso2` is case-insensitive — for a registry whose lowercased
ISO2 keys are distinct (as the world-countries dataset guarantees), every string
equal to a registered country's ISO2 up to ASCII case resolves to exactly that
country.  `setCountry`, the default/fallback chain and the preference resolution
all perform their ISO2 lookups through this function. -/
theorem c10_getCountryByIso2_case_insensitive
    (countries : List Country) (c : Country) (s : String)
    (hnodup : (countries.map (fun x => jsToLower x.iso2)).Nodup)
    (hmem : c ∈ countries)
    (hcase : jsToLower s = jsToLower c.iso2) :
    getCountryByIso2 countries s = some c := by
  induction countries with
  | nil => cases hmem
  | cons a rest ih =>
    rcases List.mem_cons.mp hmem with rfl | hmem2
    · unfold getCountryByIso2
      rw [List.find?_cons_of_pos]
      simp [hcase]
    · have hanotin : jsToLower a.iso2 ∉ rest.map (fun x => jsToLower x.iso2) := by
        have := hnodup
        rw [List.map_cons, List.nodup_cons] at this
        exact this.1
      have hne : (jsToLower a.iso2 == jsToLower s) = false := by
        rw [beq_eq_false_iff_ne]
        intro he
        apply hanotin
        rw [he, hcase]
        exact List.mem_map_of_mem _ hmem2
      unfold getCountryByIso2
      rw [List.find?_cons_of_neg]
      · exact ih (by rw [List.map_cons, List.nodup_cons] at hnodup; exact hnodup.2) hmem2
      · simp [hne]

/-- Witness for C10: the mixed-case query string resolves to the US entry. -/
theorem c10_witness :
    (regR.map (fun x => jsToLower x.iso2)).Nodup ∧ usC ∈ regR ∧
    getCountryByIso2 regR "uS" = some usC := by
  refine ⟨by decide, by decide, ?_⟩
  exact c10_getCountryByIso2_case_insensitive regR usC "uS" (by decide) (by decide) (by decide)

/-! ### C8 -/

/-- The first-non-null scan ignores validators that return `null` and stops at the
first one that returns an error. -/
theorem firstCustomError_append (pre post : List CustomValidator) (v : CustomValidator)
    (e : PhoneError) (value : String) (country : Option Country)
    (hpre : ∀ f ∈ pre, f value country = none)
    (hv : v value country = some e) :
    firstCustomError (pre ++ v :: post) value country = some e := by
  induction pre with
  | nil =>
    rw [List.nil_append, firstCustomError, hv]
  | cons f rest ih =>
    have hf : f value country = none := hpre f (List.mem_cons_self f rest)
    have hrest : ∀ g ∈ rest, g value country = none :=
      fun g hg => hpre g (List.mem_cons_of_mem f hg)
    rw [List.cons_append, firstCustomError, hf]
    exact ih hrest

/-- C8: with non-empty trimmed text, `validateNumber` runs the registered custom
validators in order on `(text, selectedCountry)`; the first non-null error is
returned verbatim with `isValid = false`, the pipeline stops there, the library
validation service is never invoked (`libCalled = false`), and the text is left
untouched. -/
theorem c8_custom_validator_short_circuit
    (cfg : Config) (ext : Ext) (pre post : List CustomValidator) (v : CustomValidator)
    (e : PhoneError) (selected : Option Country) (flags : ValFlags) (phoneValue : String)
    (hne : jsTrim phoneValue ≠ "")
    (hpre : ∀ f ∈ pre, f phoneValue selected = none)
    (hv : v phoneValue selected = some e) :
    validateNumber cfg ext (pre ++ v :: post) selected flags phoneValue =
      ⟨some ⟨false, false, some e⟩, false, false, phoneValue, true, false⟩ := by
  have hfirst := firstCustomError_append pre post v e phoneValue selected hpre hv
  unfold validateNumber
  rw [if_neg (fun h => hne h.2.2.2.2), if_neg hne, hfirst]

/-- Witness for C8: one passing validator followed by one failing validator. -/
theorem c8_witness :
    validateNumber cfg0 ext0
        ((fun _ _ => none) :: (fun _ _ => some ⟨"BLOCKED", "Number blocked."⟩) :: [])
        (some usC) freshFlags "555" =
      ⟨some ⟨false, false, some ⟨"BLOCKED", "Number blocked."⟩⟩, false, false, "555", true, false⟩ := by
  have h := c8_custom_validator_short_circuit cfg0 ext0
    [fun _ _ => none] [] (fun _ _ => some ⟨"BLOCKED", "Number blocked."⟩)
    ⟨"BLOCKED", "Number blocked."⟩ (some usC) freshFlags "555"
    (by decide)
    (by
      intro f hf
      rw [List.mem_singleton] at hf
      subst hf
      rfl)
    rfl
  exact h

/-! ### C4 -/

/-- C4 (amended): when the trimmed text is empty, the outcome is decided by
whether a parent form control is attached or the user has interacted/focused:
if so, a result is produced and emitted — `REQUIRED` when the field is required,
valid-with-no-error otherwise; only for a template-driven, never-interacted,
never-focused field is emission suppressed with a `null` result, and this
suppression applies even when the field is required. -/
theorem c4_empty_validation
    (cfg : Config) (ext : Ext) (customs : List CustomValidator)
    (selected : Option Country) (flags : ValFlags) (phoneValue : String)
    (hempty : jsTrim phoneValue = "") :
    validateNumber cfg ext customs selected flags phoneValue =
      if flags.hasFormControls = true ∨ flags.hasUserInteracted = true ∨
          flags.hasBeenFocused = true then
        ⟨some ⟨!flags.required, false,
            if flags.required then some ⟨"REQUIRED", cfg.requiredMessage⟩ else none⟩,
          !flags.required, false, phoneValue, true, false⟩
      else ⟨none, true, false, phoneValue, false, false⟩ := by
  rcases flags with ⟨fc, fo, ui, bf, rq⟩
  unfold validateNumber
  cases fc <;> cases fo <;> cases ui <;> cases bf <;> cases rq <;> simp [hempty]

/-- C4 counterexample: empty input on a required, template-driven, never-touched
field yields a `null` result with no emission — not the `REQUIRED` error the claim
puts first. -/
theorem c4_counterexample :
    (validateNumber cfg0 ext0 [] none ⟨false, false, false, false, true⟩ "").validationResult
        = none ∧
    (validateNumber cfg0 ext0 [] none ⟨false, false, false, false, true⟩ "").emitted = false := by
  decide

/-- Witness for C4: empty required field after interaction produces `REQUIRED`. -/
theorem c4_witness :
    jsTrim "" = "" ∧
    validateNumber cfg0 ext0 [] none ⟨false, false, true, false, true⟩ "" =
      ⟨some ⟨false, false, some ⟨"REQUIRED", "Phone number is required."⟩⟩,
        false, false, "", true, false⟩ := by
  constructor
  · rfl
  · have h := c4_empty_validation cfg0 ext0 [] none ⟨false, false, true, false, true⟩ "" rfl
    rw [h]
    decide

/-! ### C5 -/

/-- C5 (amended): the sticky flag is set by an evaluation in which an error is
present and the user has interacted, been focused, or is focused; from then on —
and likewise whenever the flag is already set — every evaluation with a persisting
error returns true and keeps the flag, independently of the configured trigger;
the flag resets, and the function returns false, exactly when the error condition
clears.  (A first display produced purely by the parent control's touched/dirty
state, with no component-level interaction, does not set the flag.) -/
theorem c5_sticky_error (flag : Bool) (i : ErrInputs) :
    (i.hasAnyError = true →
      (flag = true ∨ (i.hasUserInteracted || i.hasBeenFocused || i.isFocused) = true) →
      shouldShowErrorStep flag i = (true, true)) ∧
    (i.hasAnyError = false → shouldShowErrorStep flag i = (false, false)) := by
  constructor
  · intro herr hset
    unfold shouldShowErrorStep
    rcases hset with hf | hint
    · subst hf
      rw [herr]
      simp
    · rw [herr, hint]
      simp
  · intro herr
    unfold shouldShowErrorStep
    rw [herr]
    simp

/-- C5 counterexample: with a parent control and trigger `touched`, an error is
displayed while the control is touched even though the user never interacted with
the component — the sticky flag stays false — and the very next evaluation with
the same persisting error but an un-touched control shows nothing.  Display is
therefore not sticky from the first shown occurrence, contradicting the claim. -/
theorem c5_counterexample :
    shouldShowErrorStep false
        ⟨true, false, false, false, true, ShowOn.touched, true, false, true⟩ = (false, true) ∧
    (⟨true, false, false, false, true, ShowOn.touched, false, false, true⟩ : ErrInputs).hasAnyError
        = true ∧
    shouldShowErrorStep false
        ⟨true, false, false, false, true, ShowOn.touched, false, false, true⟩ = (false, false) := by
  decide

/-- Witness for C5: once the flag is set a persisting error keeps showing, and a
cleared error resets the flag and shows nothing. -/
theorem c5_witness :
    shouldShowErrorStep true
        ⟨true, false, false, false, true, ShowOn.touched, false, false, true⟩ = (true, true) ∧
    shouldShowErrorStep true
        ⟨false, true, true, true, false, ShowOn.dirty, false, false, false⟩ = (false, false) := by
  constructor
  · exact (c5_sticky_error true
      ⟨true, false, false, false, true, ShowOn.touched, false, false, true⟩).1 rfl (Or.inl rfl)
  · exact (c5_sticky_error true
      ⟨false, true, true, true, false, ShowOn.dirty, false, false, false⟩).2 rfl

/-! ### C7 -/

/-- A list that begins with no `+` does not lead with the pattern `"+"`. -/
theorem leadsWith_plus_false {l : List Char} (h : ∀ c ∈ l, (c == '+') = false) :
    leadsWith ['+'] l = false := by
  cases l with
  | nil => rfl
  | cons c cs =>
    have hc : (c == '+') = false := h c (List.mem_cons_self c cs)
    have hc2 : ('+' == c) = false := by
      rw [beq_eq_false_iff_ne] at hc ⊢
      exact fun he => hc he.symm
    unfold leadsWith
    rw [hc2]
    rfl

/-- C7 (amended): for a text change with no `+` anywhere, the gate
`shouldDetectCountryFromInput` (as called with no selected country) allows
detection exactly when at least one digit is present, but the detector performs no
prefix search on the national digits: `detectCountryFromNumber` returns the
registered `US` entry when the cleaned text has at least two characters and
nothing otherwise. -/
theorem c7_national_digits_detection
    (countries : List Country) (value : String)
    (hnoplus : ∀ c ∈ value.data, (c == '+') = false) :
    shouldDetectCountryFromInput value (onlyDigits value) none false false =
      decide (1 ≤ strLen (onlyDigits value)) ∧
    detectCountryFromNumber countries value =
      (if 2 ≤ strLen (cleanKeepPlus value) then getCountryByIso2 countries "US" else none) := by
  have hleadval : strLeads value "+" = false := by
    unfold strLeads
    exact leadsWith_plus_false hnoplus
  have hnoplusClean : ∀ c ∈ (cleanKeepPlus value).data, (c == '+') = false := by
    intro c hc
    unfold cleanKeepPlus at hc
    exact hnoplus c (List.mem_of_mem_filter hc)
  have hleadclean : strLeads (cleanKeepPlus value) "+" = false := by
    unfold strLeads
    exact leadsWith_plus_false hnoplusClean
  constructor
  · unfold shouldDetectCountryFromInput
    rw [hleadval]
    simp
  · unfold detectCountryFromNumber
    by_cases hz : cleanKeepPlus value = ""
    · rw [if_pos hz, hz]
      have h0 : strLen "" = 0 := rfl
      rw [h0]
      simp
    · rw [if_neg hz, if_neg (by rw [hleadclean]; exact Bool.false_ne_true)]

/-- C7 counterexample: with no selected country and text `"44"`, the gate fires,
the spec-modelled implicit-`+` prefix search would find the United Kingdom
(`+44`), but the source detector returns the hard-coded US default instead. -/
theorem c7_counterexample :
    shouldDetectCountryFromInput "44" "44" none false false = true ∧
    detectCountryFromNumber regR "44" = some usC ∧
    specPrefixDetect regR "44" = some gbC ∧
    usC ≠ gbC := by
  decide

/-- Witness for C7 on the text `"44"` over the three-country registry. -/
theorem c7_witness :
    shouldDetectCountryFromInput "44" (onlyDigits "44") none false false =
      decide (1 ≤ strLen (onlyDigits "44")) ∧
    detectCountryFromNumber regR "44" =
      (if 2 ≤ strLen (cleanKeepPlus "44") then getCountryByIso2 regR "US" else none) := by
  exact c7_national_digits_detection regR "44" (by decide)

/-! ### C2 -/

/-- C2 (amended): on a processed text change whose trimmed value begins with `+`,
`processPhoneNumber` attempts detection iff the previous display value did not
begin with `+` (in which case the transition into international format first
clears both flags) or both `isManualCountrySelection` and `isCountryLocked` are
already clear; with the flags set and a previous `+`-value, detection is skipped. -/
theorem c2_plus_detection_gate
    (cfg : Config) (ext : Ext) (countries : List Country) (customs : List CustomValidator)
    (s : Session) (value : String)
    (hchanged : s.phoneValue ≠ value)
    (hplus : strLeads (jsTrim value) "+" = true) :
    (processPhoneNumber cfg ext countries customs s value).detectionAttempted =
      (!(strLeads s.phoneValue "+") ||
        (!s.isManualCountrySelection && !s.isCountryLocked)) := by
  unfold processPhoneNumber
  rw [if_neg hchanged]
  unfold processPhoneNumberCore procDetectPhase shouldDetectCountryFromInput
  cases hb : strLeads s.phoneValue "+" <;> simp [hb, hplus]

/-- C2 counterexample: a `+`-leading processed change while the manual/lock flags
are set and the previous value already began with `+` performs no detection
attempt, contradicting the claim that `+`-input always triggers detection. -/
theorem c2_counterexample :
    strLeads (jsTrim "+1 555") "+" = true ∧
    sLockedPlus.phoneValue ≠ "+1 555" ∧
    sLockedPlus.isManualCountrySelection = true ∧
    sLockedPlus.isCountryLocked = true ∧
    (processPhoneNumber cfg0 ext0 regR [] sLockedPlus "+1 555").detectionAttempted = false := by
  decide

/-- Witness for C2: the same flags with a national-format previous value are
cleared by the transition and detection is attempted. -/
theorem c2_witness :
    sNatLocked.phoneValue ≠ "+44 2" ∧
    strLeads (jsTrim "+44 2") "+" = true ∧
    (processPhoneNumber cfg0 ext0 regR [] sNatLocked "+44 2").detectionAttempted =
      (!(strLeads sNatLocked.phoneValue "+") ||
        (!sNatLocked.isManualCountrySelection && !sNatLocked.isCountryLocked)) := by
  refine ⟨by decide, by decide, ?_⟩
  exact c2_plus_detection_gate cfg0 ext0 regR [] sNatLocked "+44 2" (by decide) (by decide)

/-! ### C3 -/

/-- C3 (amended): the debounced settle handler re-processes the most recent raw
value only when it differs from the current display text: when they are equal
(the common case, since `onPhoneInput` already stored the raw value), the settle
returns immediately without detection, validation, or any emission; when they
differ, validation does run and the authoritative value emission happens iff the
processed display text ends up equal to the settled raw value. -/
theorem c3_settle_behavior
    (cfg : Config) (ext : Ext) (countries : List Country) (customs : List CustomValidator)
    (s : Session) (v : String) :
    (s.phoneValue = v →
      processPhoneNumber cfg ext countries customs s v = ⟨s, false, false, false, false⟩) ∧
    (s.phoneValue ≠ v →
      (processPhoneNumber cfg ext countries customs s v).validationRan = true ∧
      ((processPhoneNumber cfg ext countries customs s v).valueEmitted = true ↔
        (processPhoneNumber cfg ext countries customs s v).session.phoneValue = v)) := by
  constructor
  · intro h
    unfold processPhoneNumber
    rw [if_pos h]
  · intro h
    unfold processPhoneNumber
    rw [if_neg h]
    refine ⟨rfl, ?_⟩
    simp only [processPhoneNumberCore]
    exact beq_iff_eq

/-- C3 counterexample: after the keystroke handler stores `"5"` the debounce
window settles on `"5"`, yet the settle performs no re-detection, no
re-validation, and no emission at all — the authoritative emission the claim
describes never happens for this text change. -/
theorem c3_counterexample :
    debouncedDistinct [(0, "5")] = [(300, "5")] ∧
    (onPhoneInput cfg0 ext0 regR [] freshSession "5").session.phoneValue = "5" ∧
    processPhoneNumber cfg0 ext0 regR []
        (onPhoneInput cfg0 ext0 regR [] freshSession "5").session "5" =
      ⟨(onPhoneInput cfg0 ext0 regR [] freshSession "5").session,
        false, false, false, false⟩ := by
  decide

/-- Witness for C3: the no-op branch at an equal value and the validation run at a
changed value. -/
theorem c3_witness :
    processPhoneNumber cfg0 ext0 regR [] freshSession "" =
      ⟨freshSession, false, false, false, false⟩ ∧
    (processPhoneNumber cfg0 ext0 regR [] freshSession "12").validationRan = true := by
  constructor
  · exact (c3_settle_behavior cfg0 ext0 regR [] freshSession "").1 rfl
  · exact ((c3_settle_behavior cfg0 ext0 regR [] freshSession "12").2 (by decide)).1

/-! ### Digit-preservation helper lemmas -/

/-- A whitespace character is not a digit. -/
theorem ws_isDigit_false {c : Char} (h : c.isWhitespace = true) : c.isDigit = false := by
  simp only [Char.isWhitespace, Bool.or_eq_true, decide_eq_true_eq] at h
  rcases h with ((h | h) | h) | h <;> subst h <;> rfl

/-- Filtering with a predicate that keeps all digits does not change the digit
subsequence. -/
theorem onlyDigitsL_filter_keep {p : Char → Bool} (hp : ∀ c, c.isDigit = true → p c = true)
    (l : List Char) : onlyDigitsL (l.filter p) = onlyDigitsL l := by
  unfold onlyDigitsL
  induction l with
  | nil => rfl
  | cons c cs ih =>
    cases hd : c.isDigit with
    | false =>
      cases hpc : p c with
      | false => simp [List.filter_cons, hd, hpc, ih]
      | true => simp [List.filter_cons, hd, hpc, ih]
    | true =>
      have hpc : p c = true := hp c hd
      simp [List.filter_cons, hd, hpc, ih]

/-- Dropping leading whitespace does not change the digit subsequence. -/
theorem filter_isDigit_dropWhile_ws (l : List Char) :
    (l.dropWhile Char.isWhitespace).filter Char.isDigit = l.filter Char.isDigit := by
  induction l with
  | nil => rfl
  | cons c cs ih =>
    cases hw : c.isWhitespace with
    | false => simp [List.dropWhile_cons, hw]
    | true => simp [List.dropWhile_cons, hw, ih, List.filter_cons, ws_isDigit_false hw]

/-- `trim` does not change the digit subsequence. -/
theorem onlyDigits_jsTrim (s : String) : onlyDigits (jsTrim s) = onlyDigits s := by
  unfold onlyDigits jsTrim onlyDigitsL
  rw [List.filter_reverse, filter_isDigit_dropWhile_ws, List.filter_reverse,
    List.reverse_reverse, filter_isDigit_dropWhile_ws]

/-- The digit subsequence distributes over string append. -/
theorem onlyDigits_append (a b : String) : onlyDigits (a ++ b) = onlyDigits a ++ onlyDigits b := by
  unfold onlyDigits onlyDigitsL
  rw [String.data_append, List.filter_append]
  rfl

/-- A list that does not lead with `[c]` does not lead with any longer pattern
starting at `c`. -/
theorem leadsWith_cons_false {c : Char} {xs l : List Char} (h : leadsWith [c] l = false) :
    leadsWith (c :: xs) l = false := by
  cases l with
  | nil => rfl
  | cons d ds =>
    unfold leadsWith at h ⊢
    have hc : (c == d) = false := by
      cases hcd : c == d
      · rfl
      · rw [hcd] at h
        simp [leadsWith] at h
    rw [hc]
    rfl

/-- A string that leads with `"+"` has `'+'` as its first character. -/
theorem data_of_strLeads_plus {d : String} (h : strLeads d "+" = true) :
    ∃ rest, d.data = '+' :: rest := by
  unfold strLeads at h
  cases hd : d.data with
  | nil => rw [hd] at h; simp [leadsWith] at h
  | cons c cs =>
    rw [hd] at h
    unfold leadsWith at h
    have hpc2 : ('+' == c) = true := by
      cases hpc : '+' == c
      · rw [hpc] at h; simp at h
      · rfl
    rw [beq_iff_eq] at hpc2
    exact ⟨cs, by rw [← hpc2]⟩

/-- The characters stripped by `[\s().-]` are never digits. -/
theorem stripPunct_keeps_digits (c : Char) (hd : c.isDigit = true) :
    (!(c.isWhitespace || c == '(' || c == ')' || c == '.' || c == '-')) = true := by
  have hws : c.isWhitespace = false := by
    cases hw : c.isWhitespace
    · rfl
    · rw [ws_isDigit_false hw] at hd; cases hd
  have h1 : (c == '(') = false := by
    cases h : c == '('
    · rfl
    · rw [beq_iff_eq] at h; subst h; cases hd
  have h2 : (c == ')') = false := by
    cases h : c == ')'
    · rfl
    · rw [beq_iff_eq] at h; subst h; cases hd
  have h3 : (c == '.') = false := by
    cases h : c == '.'
    · rfl
    · rw [beq_iff_eq] at h; subst h; cases hd
  have h4 : (c == '-') = false := by
    cases h : c == '-'
    · rfl
    · rw [beq_iff_eq] at h; subst h; cases hd
  rw [hws, h1, h2, h3, h4]
  rfl

/-- For text that does not start with `+` (after trimming) and a `+`-leading dial
code, `extractNationalNumber` keeps exactly the digits of the original text. -/
theorem extractNationalNumber_digits (phoneValue iso dial : String)
    (parse : String → Option String → Option ParsedNatl)
    (hne : phoneValue ≠ "")
    (hnoplus : strLeads (jsTrim phoneValue) "+" = false)
    (hdial : strLeads dial "+" = true) :
    onlyDigits (extractNationalNumber phoneValue (some iso) (some dial) parse) =
      onlyDigits phoneValue := by
  obtain ⟨rest, hrest⟩ := data_of_strLeads_plus hdial
  have hlead1 : ∀ xs, leadsWith ('+' :: xs) (jsTrim phoneValue).data = false :=
    fun xs => leadsWith_cons_false hnoplus
  have hb1 : strLeads (jsTrim phoneValue) ("+" ++ strDrop dial 1) = false := by
    unfold strLeads
    have : ("+" ++ strDrop dial 1).data = '+' :: (strDrop dial 1).data := by
      rw [String.data_append]
      rfl
    rw [this]
    exact hlead1 _
  have hb2 : strLeads (jsTrim phoneValue) dial = false := by
    unfold strLeads
    rw [hrest]
    exact hlead1 _
  unfold extractNationalNumber
  rw [if_neg hne]
  simp only [Option.getD_some, hnoplus, hb1, hb2, Bool.false_eq_true, if_false,
    and_false, false_and]
  rw [onlyDigits_jsTrim]
  unfold onlyDigits
  rw [onlyDigitsL_filter_keep stripPunct_keeps_digits]
  exact onlyDigits_jsTrim phoneValue

/-- A pattern leads any list it is appended to. -/
theorem leadsWith_append_self (p r : List Char) : leadsWith p (p ++ r) = true := by
  induction p with
  | nil => rfl
  | cons a as ih =>
    show leadsWith (a :: as) (a :: (as ++ r)) = true
    unfold leadsWith
    rw [beq_self_eq_true, Bool.true_and]
    exact ih

/-- Removing the first occurrence of a pattern from a list it leads leaves exactly
the remainder. -/
theorem replaceFirst_of_leading (sub r : List Char) :
    replaceFirstOccL sub [] (sub ++ r) = r := by
  cases sub with
  | nil =>
    cases r with
    | nil => rfl
    | cons c cs => simp [replaceFirstOccL, leadsWith]
  | cons a as =>
    show replaceFirstOccL (a :: as) [] (a :: (as ++ r)) = r
    unfold replaceFirstOccL
    have hlw : leadsWith (a :: as) (a :: (as ++ r)) = true := leadsWith_append_self (a :: as) r
    rw [if_pos hlw]
    simp only [List.nil_append, List.length_cons, List.drop_succ_cons, List.drop_left]

/-- String version of `replaceFirst_of_leading` for `removeFirstOccS`. -/
theorem removeFirstOcc_append_self (sub r : String) :
    removeFirstOccS (sub ++ r) sub = r := by
  show String.mk (replaceFirstOccL sub.data [] (sub ++ r).data) = r
  rw [String.data_append, replaceFirst_of_leading]

/-- Appending the empty string on the right is the identity. -/
theorem string_append_empty (a : String) : a ++ "" = a := by
  cases a with
  | mk l => exact congrArg String.mk (List.append_nil l)

/-- String append is left-cancellative. -/
theorem string_append_left_cancel {a b c : String} (h : a ++ b = a ++ c) : b = c := by
  have hd := congrArg String.data h
  rw [String.data_append, String.data_append] at hd
  exact congrArg String.mk (List.append_cancel_left hd)

/-! ### C6 -/

/-- C6 (amended): a manual pick from any state and under every configuration sets
both the manual-selection and locked flags and immediately rewrites the display.
An empty field receives the as-you-type-formatted dial code when
`showCountryCodeInInput` or `separateCountrySelector` is configured and is left
empty under the default configuration.  A non-empty field whose trimmed text does
not start with `+` preserves every digit of the national number, with only the
dial-code prefix and punctuation rewritten: with the dial code shown, the display
digits are the new dial code's digits followed by the original digits; under the
default configuration the dial code is stripped again and exactly the original
digits remain (assuming the as-you-type primitive preserves digits and, for the
stripping case, renders the dial code as a verbatim prefix). -/
theorem c6_manual_pick
    (cfg : Config) (ext : Ext) (s : Session) (country : Country) (clearInput : Bool) :
    ((selectCountry cfg ext s country true clearInput true).isManualCountrySelection = true ∧
      (selectCountry cfg ext s country true clearInput true).isCountryLocked = true) ∧
    (s.phoneValue = "" →
      (selectCountry cfg ext s country true clearInput true).phoneValue =
        (if cfg.showCountryCodeInInput || cfg.separateCountrySelector then
          svcFormatAsYouType ext.asYouTypePrim country.dialCode country.iso2
        else "")) ∧
    (s.phoneValue ≠ "" → strLeads (jsTrim s.phoneValue) "+" = false →
      strLeads country.dialCode "+" = true →
      (∀ input iso,
        onlyDigits (svcFormatAsYouType ext.asYouTypePrim input iso) = onlyDigits input) →
      ((cfg.showCountryCodeInInput || cfg.separateCountrySelector) = true →
        onlyDigits (selectCountry cfg ext s country true clearInput true).phoneValue =
          onlyDigits country.dialCode ++ onlyDigits s.phoneValue) ∧
      (∀ rest : String,
        (cfg.showCountryCodeInInput || cfg.separateCountrySelector) = false →
        svcFormatAsYouType ext.asYouTypePrim
            (country.dialCode ++ " " ++
              extractNationalNumber s.phoneValue (some country.iso2) (some country.dialCode)
                ext.parseNatl) country.iso2 = country.dialCode ++ rest →
        onlyDigits (selectCountry cfg ext s country true clearInput true).phoneValue =
          onlyDigits s.phoneValue)) := by
  refine ⟨?_, ?_, ?_⟩
  · unfold selectCountry
    cases hb : s.phoneValue != "" <;>
      cases hsh : cfg.showCountryCodeInInput || cfg.separateCountrySelector <;>
        simp [hb, hsh]
  · intro hpv
    unfold selectCountry
    simp [hpv]
    split <;> rfl
  · intro hpv hnp hdial hfmt
    have hbne : (s.phoneValue != "") = true := by
      rw [bne_iff_ne]
      exact hpv
    have hnat := extractNationalNumber_digits s.phoneValue country.iso2 country.dialCode
      ext.parseNatl hpv hnp hdial
    constructor
    · intro hsh
      have hsp : onlyDigits " " = "" := rfl
      have hnil : ∀ t : String, "" ++ t = t := fun _ => rfl
      unfold selectCountry
      simp [hsh, hbne, hfmt, onlyDigits_append, hsp, hnil, hnat]
    · intro rest hsh hshape
      have hdigrest : onlyDigits rest = onlyDigits s.phoneValue := by
        have h1 := hfmt (country.dialCode ++ " " ++
          extractNationalNumber s.phoneValue (some country.iso2) (some country.dialCode)
            ext.parseNatl) country.iso2
        rw [hshape, onlyDigits_append, onlyDigits_append, onlyDigits_append,
          show onlyDigits " " = "" from rfl, string_append_empty, hnat] at h1
        exact string_append_left_cancel h1
      unfold selectCountry
      simp only [hsh, hbne, Bool.and_self, Bool.not_true, Bool.and_false,
        Bool.false_eq_true, if_false, Bool.or_true, Bool.true_and, if_true,
        Bool.and_true, ite_true, ite_false]
      rw [hshape, removeFirstOcc_append_self, onlyDigits_jsTrim, hdigrest]

/-- C6 counterexample: under the default configuration a manual pick on an empty
field leaves the text empty; the claimed insertion of the dial code does not
happen. -/
theorem c6_counterexample :
    emptyUS.phoneValue = "" ∧
    (selectCountry cfg0 ext0 emptyUS gbC true false true).phoneValue = "" ∧
    gbC.dialCode = "+44" ∧
    (selectCountry cfg0 ext0 emptyUS gbC true false true).phoneValue ≠ gbC.dialCode := by
  decide

/-- Witness for C6: under the default configuration a manual switch to GB on
`"(555) 123-4567"` sets the flags and leaves exactly the original digits; with
the dial code shown, the same switch prepends the GB dial-code digits. -/
theorem c6_witness :
    ((selectCountry cfg0 ext0 sParen gbC true false true).isManualCountrySelection = true ∧
      (selectCountry cfg0 ext0 sParen gbC true false true).isCountryLocked = true) ∧
    onlyDigits (selectCountry cfgShow ext0 sParen gbC true false true).phoneValue =
      onlyDigits gbC.dialCode ++ onlyDigits sParen.phoneValue ∧
    onlyDigits (selectCountry cfg0 ext0 sParen gbC true false true).phoneValue =
      onlyDigits sParen.phoneValue := by
  have h0 := c6_manual_pick cfg0 ext0 sParen gbC false
  have h1 := c6_manual_pick cfgShow ext0 sParen gbC false
  refine ⟨h0.1, ?_, ?_⟩
  · exact (h1.2.2 (by decide) (by decide) (by decide) (fun _ _ => rfl)).1 (by decide)
  · exact (h0.2.2 (by decide) (by decide) (by decide) (fun _ _ => rfl)).2
      " 5551234567" (by decide) (by decide)

/-! ### C1 -/

/-- Code-point order is reflexive. -/
theorem lexLeL_refl : ∀ l : List Char, lexLeL l l = true := by
  intro l
  induction l with
  | nil => rfl
  | cons c cs ih =>
    unfold lexLeL
    rw [if_neg (Nat.lt_irrefl _), if_neg (Nat.lt_irrefl _)]
    exact ih

/-- The registry order is reflexive. -/
theorem countryLeB_refl (a : Country) : countryLeB a a = true := by
  unfold countryLeB
  rw [if_neg (Nat.lt_irrefl _), if_neg (Nat.lt_irrefl _)]
  exact lexLeL_refl _

/-- In a registry sorted by the `initializeCountries` comparator, `find?` returns
a least matching element. -/
theorem find_first_is_min {p : Country → Bool} {cs : List Country} {d : Country}
    (hs : cs.Pairwise (fun a b => countryLeB a b = true)) (h : cs.find? p = some d) :
    ∀ e ∈ cs, p e = true → countryLeB d e = true := by
  induction cs with
  | nil => cases h
  | cons a rest ih =>
    rw [List.pairwise_cons] at hs
    intro e he hpe
    rcases List.mem_cons.mp he with rfl | hemem
    · cases hpa : p e with
      | false => rw [hpa] at hpe; cases hpe
      | true =>
        rw [List.find?_cons_of_pos _ hpa] at h
        injection h with h
        subst h
        exact countryLeB_refl e
    · cases hpa : p a with
      | false =>
        rw [List.find?_cons_of_neg _ (by rw [hpa]; exact Bool.false_ne_true)] at h
        exact ih hs.2 h e hemem hpe
      | true =>
        rw [List.find?_cons_of_pos _ hpa] at h
        injection h with h
        subst h
        exact hs.1 e hemem

/-- Whenever the prefix scan of `detectCountryFromNumber` selects a country over a
sorted registry, that country is least (in the registry order) among all entries
sharing its dial-code digits. -/
theorem detectScan_min {countries : List Country} {cleaned : String} {lens : List Nat}
    {d : Country}
    (hs : countries.Pairwise (fun a b => countryLeB a b = true))
    (h : detectScan countries cleaned lens = some d) :
    ∀ e ∈ countries, onlyDigits e.dialCode = onlyDigits d.dialCode → countryLeB d e = true := by
  induction lens with
  | nil => cases h
  | cons len rest ih =>
    unfold detectScan at h
    by_cases hlt : len < strLen cleaned
    · rw [if_pos hlt] at h
      cases hfind : getCountryByDialCode countries (strTake cleaned (len + 1)) with
      | none => rw [hfind] at h; exact ih h
      | some c =>
        rw [hfind] at h
        injection h with h
        subst h
        unfold getCountryByDialCode at hfind
        have hd := List.find?_some hfind
        intro e he heq
        apply find_first_is_min hs hfind e he
        rw [beq_iff_eq] at hd ⊢
        rw [heq, hd]
    · rw [if_neg hlt] at h
      exact ih h

/-- Stripping to digits-and-plus preserves a leading `+` and non-emptiness. -/
theorem strLeads_cleanKeepPlus {value : String} (h : strLeads value "+" = true) :
    strLeads (cleanKeepPlus value) "+" = true ∧ cleanKeepPlus value ≠ "" := by
  obtain ⟨rest, hrest⟩ := data_of_strLeads_plus h
  have hdata : (cleanKeepPlus value).data =
      '+' :: rest.filter (fun c => c.isDigit || c == '+') := by
    unfold cleanKeepPlus
    rw [hrest, List.filter_cons, if_pos (by decide)]
  constructor
  · unfold strLeads
    rw [hdata]
    rfl
  · intro he
    rw [he] at hdata
    cases hdata

/-- C1 (amended): over a registry sorted as `initializeCountries` leaves it, when
the external parse yields no country and the prefix scan resolves a `+`-leading
input to a base candidate `d`: (1) `d` is the least entry — lowest effective
priority, ties broken by name — among all registry entries sharing its dial-code
digits; (2) with no preference configured for the bare dial-code digits, detection
returns `d` itself; (3) with a preference mapping those digits to a non-empty ISO2
that resolves to a registered country, detection returns that preferred country —
whether or not it shares the dial code (no candidate-membership check).
Determinism is immediate since the resolution is a pure function. -/
theorem c1_dial_code_resolution
    (countries : List Country) (pref : List (String × String))
    (parseIso : String → Except Unit (Option String)) (value : String) (d : Country)
    (hsorted : countries.Pairwise (fun a b => countryLeB a b = true))
    (hparse : parseIso value = Except.ok none)
    (hplus : strLeads value "+" = true)
    (hdet : detectCountryFromNumber countries value = some d) :
    (∀ e ∈ countries, onlyDigits e.dialCode = onlyDigits d.dialCode →
      countryLeB d e = true) ∧
    (lookupPref pref (removeFirstOccS d.dialCode "+") = none →
      detectCountryFromInputCore countries pref parseIso value = some d) ∧
    (∀ iso p, lookupPref pref (removeFirstOccS d.dialCode "+") = some iso → iso ≠ "" →
      getCountryByIso2 countries iso = some p →
      detectCountryFromInputCore countries pref parseIso value = some p) := by
  have hex : extractCountry countries parseIso value = some d := by
    unfold extractCountry
    rw [hparse]
    exact hdet
  have hcorefn : detectCountryFromInputCore countries pref parseIso value =
      resolvePreferredCountryByDialCode (some d) pref (getCountryByIso2 countries) := by
    unfold detectCountryFromInputCore
    rw [hex, hplus]
    rfl
  refine ⟨?_, ?_, ?_⟩
  · obtain ⟨hclplus, hclne⟩ := strLeads_cleanKeepPlus hplus
    simp only [detectCountryFromNumber] at hdet
    rw [if_neg hclne, if_pos hclplus] at hdet
    exact detectScan_min hsorted hdet
  · intro hlook
    rw [hcorefn]
    simp only [resolvePreferredCountryByDialCode, hlook]
  · intro iso p hlook hne hget
    rw [hcorefn]
    simp only [resolvePreferredCountryByDialCode, hlook, hget, if_neg hne]

/-- C1 counterexample: with preference `{"1": "GB"}`, detection on `"+1…"` returns
the United Kingdom even though GB is not among the countries sharing dial code
`+1` — the preferred entry is used without any candidate-membership check. -/
theorem c1_counterexample :
    detectCountryFromInputCore regR [("1", "GB")] (fun _ => Except.ok none) "+15551234567"
        = some gbC ∧
    gbC ∉ getCountriesByDialCode regR "+1" ∧
    getCountriesByDialCode regR "+1" = [caC, usC] := by
  decide

/-- Witness for C1: with preference `{"1": "CA"}` the base candidate for `"+1…"`
is Canada (least in the sorted registry among `+1` entries) and the preferred
country is returned. -/
theorem c1_witness :
    (∀ e ∈ regR, onlyDigits e.dialCode = onlyDigits caC.dialCode →
      countryLeB caC e = true) ∧
    detectCountryFromInputCore regR [("1", "CA")] (fun _ => Except.ok none) "+15551234567"
        = some caC := by
  have h := c1_dial_code_resolution regR [("1", "CA")] (fun _ => Except.ok none)
    "+15551234567" caC (by decide) rfl (by decide) (by decide)
  exact ⟨h.1, h.2.2 "CA" caC (by decide) (by decide) (by decide)⟩

end NgxPhone
